import Mathlib

/-!
Verification of the Symplibackup FastAPI proxy (`src/main.py`).

The service is a stateless REST façade over a UrBackup backend.  The
development below shallowly embeds the resolver and the route handlers the
claims are about: Python dicts for clients and backups become structures,
the backend library becomes explicit function parameters (its calls are
pass-throughs), the filesystem becomes an explicit abstract state, and
FastAPI's exception translation becomes `Except HTTPError`.
-/

namespace Symplibackup

/-- A client identifier as received by a route: FastAPI declares the
parameter as `Union[str, int]`. -/
inductive Ident where
  | int (n : Int)
  | str (s : String)
deriving DecidableEq, Repr

/-- The ASCII whitespace characters Python's `int()` and `str.strip()`
discard (`str.isspace` on ASCII). -/
def isPySpace (c : Char) : Bool :=
  c = ' ' || c = '\t' || c = '\n' || c = '\r' || c = '\x0b' || c = '\x0c'

/-- Strip `isPySpace` characters from both ends of a character list. -/
def stripChars (l : List Char) : List Char :=
  ((l.dropWhile isPySpace).reverse.dropWhile isPySpace).reverse

/-- Decimal value of a digit run. -/
def digitsVal (l : List Char) : Nat :=
  l.foldl (fun a c => a * 10 + (c.toNat - 48)) 0

/-- Python `int(s)` applied to a string: surrounding whitespace is
stripped, then an optional sign followed by a nonempty run of decimal
digits; anything else raises `ValueError` (modelled as `none`).
CPython also accepts underscore separators between digits; no claim
depends on them so they are not modelled. -/
def pyIntOfChars (l : List Char) : Option Int :=
  match stripChars l with
  | [] => none
  | c :: rest =>
    let core := if c = '-' || c = '+' then rest else c :: rest
    if !core.isEmpty && core.all Char.isDigit then
      some (if c = '-' then -(digitsVal core : Int) else (digitsVal core : Int))
    else none

/-- Python `int(s)` on a string, via the character list. -/
def pyIntOfString (s : String) : Option Int :=
  pyIntOfChars s.data

/-- Python `int(identifier)` inside `resolve_client`: the identity on an
actual `int`, string parsing on a `str`. -/
def pyInt : Ident → Option Int
  | .int n => some n
  | .str s => pyIntOfString s

/-- Python `str(identifier)`. -/
def pyStr : Ident → String
  | .int n => toString n
  | .str s => s

/-- A client record of the backend roster.  The code reads exactly the
`id` and `name` fields of the dicts returned by `server.get_clients()`. -/
structure Client where
  id : Int
  name : String
deriving DecidableEq, Repr

/-- A raised `fastapi.HTTPException`: status code plus detail string. -/
structure HTTPError where
  status : Nat
  detail : String
deriving DecidableEq, Repr

/-- `str(e)` of a FastAPI/Starlette `HTTPException`:
`f"{self.status_code}: {self.detail}"`. -/
def httpExceptionStr (e : HTTPError) : String :=
  toString e.status ++ ": " ++ e.detail

/-- The 404 detail raised by `resolve_client`; in the name branch the code
first rebinds `identifier = str(identifier)`, and the f-string renders an
`int` the same way, so both branches format `str(identifier)`. -/
def clientNotFoundDetail (identifier : Ident) : String :=
  "Client '" ++ pyStr identifier ++ "' non trouvé"

/-- The first `for c in clients` loop of `resolve_client`:
return the first record whose `id` equals the parsed integer. -/
def findById (n : Int) : List Client → Option Client
  | [] => none
  | c :: rest => if c.id = n then some c else findById n rest

/-- The second `for c in clients` loop of `resolve_client`:
return the first record whose `name` equals the string (exact,
case-sensitive comparison). -/
def findByName (s : String) : List Client → Option Client
  | [] => none
  | c :: rest => if c.name = s then some c else findByName s rest

/-- `resolve_client` (src/main.py:48-60).  `int(identifier)` is attempted
first; on success only the id scan runs (a `return` inside the `try`
leaves the function, and falling off the loop reaches the final `raise`),
on `ValueError`/`TypeError` the `except` arm runs the name scan; either
way a missed scan reaches `raise HTTPException(404, ...)`. -/
def resolve_client (clients : List Client) (identifier : Ident) :
    Except HTTPError Client :=
  match pyInt identifier with
  | some n =>
    match findById n clients with
    | some c => .ok c
    | none => .error ⟨404, clientNotFoundDetail identifier⟩
  | none =>
    match findByName (pyStr identifier) clients with
    | some c => .ok c
    | none => .error ⟨404, clientNotFoundDetail identifier⟩

theorem findById_eq_find? (n : Int) (l : List Client) :
    findById n l = l.find? (fun c => c.id == n) := by
  induction l with
  | nil => rfl
  | cons c rest ih =>
    by_cases h : c.id = n
    · simp only [findById, if_pos h]
      rw [List.find?_cons_of_pos _ (by simp [h])]
    · simp only [findById, if_neg h, ih]
      rw [List.find?_cons_of_neg _ (by simp [h])]

theorem findByName_eq_find? (s : String) (l : List Client) :
    findByName s l = l.find? (fun c => c.name == s) := by
  induction l with
  | nil => rfl
  | cons c rest ih =>
    by_cases h : c.name = s
    · simp only [findByName, if_pos h]
      rw [List.find?_cons_of_pos _ (by simp [h])]
    · simp only [findByName, if_neg h, ih]
      rw [List.find?_cons_of_neg _ (by simp [h])]

/-- C1: `resolve_client` attempts an integer parse of the identifier
first.  If the parse succeeds it returns the first roster record whose
`id` equals the parsed integer and signals NOT_FOUND (404, naming the
identifier) when none matches — never falling back to the name search,
whatever names the roster contains.  If the parse fails it returns the
first record whose `name` equals `str(identifier)` exactly
(case-sensitive), or signals NOT_FOUND. -/
theorem c1_resolve_client_policy (clients : List Client) (identifier : Ident) :
    (∀ n, pyInt identifier = some n →
      resolve_client clients identifier =
        (match clients.find? (fun c => c.id == n) with
         | some c => .ok c
         | none => .error ⟨404, clientNotFoundDetail identifier⟩)) ∧
    (pyInt identifier = none →
      resolve_client clients identifier =
        (match clients.find? (fun c => c.name == pyStr identifier) with
         | some c => .ok c
         | none => .error ⟨404, clientNotFoundDetail identifier⟩)) := by
  constructor
  · intro n h
    simp only [resolve_client, h, findById_eq_find? n clients]
  · intro h
    simp only [resolve_client, h, findByName_eq_find? (pyStr identifier) clients]

/-- A roster on which the numeric-looking identifier "1" must resolve
against ids only, although the record with id 2 is literally named "1". -/
def demoRoster : List Client := [⟨1, "alpha"⟩, ⟨2, "1"⟩]

theorem c1_resolve_client_policy_witness :
    pyInt (.str "1") = some 1 ∧
    resolve_client demoRoster (.str "1") =
      (match demoRoster.find? (fun c => c.id == (1 : Int)) with
       | some c => .ok c
       | none => .error ⟨404, clientNotFoundDetail (.str "1")⟩) :=
  ⟨by decide, (c1_resolve_client_policy demoRoster (.str "1")).1 1 (by decide)⟩

/-- `get_client_detail` (src/main.py:127-134): the `resolve_client` call
sits inside `try: ... except Exception as e: raise HTTPException(500,
str(e))`, and `fastapi.HTTPException` is an `Exception`, so the resolver's
404 is caught and re-raised as a 500 whose detail is `str(e)`. -/
def get_client_detail (clients : List Client) (identifier : Ident) :
    Except HTTPError Client :=
  match resolve_client clients identifier with
  | .ok c => .ok c
  | .error e => .error ⟨500, httpExceptionStr e⟩

/-- `launch_full_backup` (src/main.py:136-143), same `try/except` shape;
the backend pass-through `start_full_file_backup` is a parameter (the
claim concerns resolution failure, where it is never reached). -/
def launch_full_backup (clients : List Client)
    (startFullFileBackup : Int → String) (identifier : Ident) :
    Except HTTPError String :=
  match resolve_client clients identifier with
  | .ok c => .ok (startFullFileBackup c.id)
  | .error e => .error ⟨500, httpExceptionStr e⟩

/-- C2 (code bug): on the cited client-scoped endpoints an identifier
that does not resolve yields HTTP 500, not 404 — the blanket
`except Exception` converts the resolver's `HTTPException(404, ...)` into
`HTTPException(500, str(e))`.  Evaluated at the failing input: an empty
roster and identifier "ghost". -/
theorem c2_unresolved_client_gets_500 :
    get_client_detail [] (.str "ghost") =
      .error ⟨500, "404: Client 'ghost' non trouvé"⟩ ∧
    launch_full_backup [] (fun _ => "ok") (.str "ghost") =
      .error ⟨500, "404: Client 'ghost' non trouvé"⟩ := by
  exact ⟨by rfl, by rfl⟩

/-- One template segment of a route path: a literal, or a `{param}`
capture (Starlette's default `str` converter matches one path segment). -/
inductive Seg where
  | lit (s : String)
  | cap
deriving DecidableEq, Repr

/-- A registered route: HTTP method, path template, handler name. -/
structure Route where
  method : String
  segs : List Seg
  handler : String
deriving DecidableEq, Repr

/-- Whether a path template matches a concrete path, segment by segment. -/
def matchSegs : List Seg → List String → Bool
  | [], [] => true
  | .lit s :: ps, x :: xs => s == x && matchSegs ps xs
  | .cap :: ps, _ :: xs => matchSegs ps xs
  | _, _ => false

/-- The application's route table in registration order (src/main.py).
FastAPI registers `/openapi.json` at app construction; the `/static`
mount only matches paths under `/static` and is irrelevant here.
Starlette dispatches to the FIRST registered route that matches. -/
def routes : List Route := [
  ⟨"GET", [.lit "openapi.json"], "openapi"⟩,
  ⟨"GET", [.lit "docs"], "custom_swagger_ui_html"⟩,
  ⟨"GET", [.lit "status"], "get_status"⟩,
  ⟨"GET", [.lit "clients"], "get_clients"⟩,
  ⟨"GET", [.lit "client", .cap], "get_client_detail"⟩,
  ⟨"POST", [.lit "backup", .lit "full"], "launch_full_backup"⟩,
  ⟨"POST", [.lit "backup", .lit "image"], "launch_image_backup"⟩,
  ⟨"POST", [.lit "backup", .lit "incremental"], "launch_incremental_backup"⟩,
  ⟨"GET", [.lit "backups", .cap], "get_client_backups"⟩,
  ⟨"POST", [.lit "backup", .lit "delete"], "delete_backup"⟩,
  ⟨"POST", [.lit "client", .lit "create"], "create_client"⟩,
  ⟨"POST", [.lit "client", .lit "delete"], "delete_client"⟩,
  ⟨"POST", [.lit "client", .lit "rename"], "rename_client"⟩,
  ⟨"GET", [.lit "client", .lit "settings", .cap], "get_client_settings"⟩,
  ⟨"POST", [.lit "client", .lit "settings", .lit "change"], "set_client_setting"⟩,
  ⟨"GET", [.lit "client", .lit "authkey", .cap], "get_client_authkey"⟩,
  ⟨"GET", [.lit "logs", .cap], "get_client_logs"⟩,
  ⟨"GET", [.lit "client", .cap, .lit "quota"], "get_client_quota"⟩,
  ⟨"POST", [.lit "client", .lit "quota"], "set_client_quota"⟩,
  ⟨"GET", [.lit "client", .cap, .lit "used_space"], "get_client_used_space"⟩,
  ⟨"GET", [.lit "backups", .cap, .cap, .lit "files"], "list_files_in_backup"⟩,
  ⟨"POST", [.lit "backups", .cap, .cap, .lit "restore"], "restore_backup"⟩,
  ⟨"GET", [.lit "backups", .cap, .lit "latest"], "get_latest_backup"⟩,
  ⟨"GET", [.lit "backups", .cap, .cap, .lit "download"], "download_file_from_backup"⟩,
  ⟨"GET", [.lit "logs", .lit "server"], "get_server_logs"⟩,
  ⟨"GET", [.lit "logs", .cap, .lit "search"], "search_logs_client"⟩,
  ⟨"GET", [.lit "groups"], "list_groups"⟩,
  ⟨"GET", [.lit "groups", .cap, .lit "clients"], "list_clients_in_group"⟩,
  ⟨"POST", [.lit "groups", .lit "create"], "create_group"⟩,
  ⟨"DELETE", [.lit "groups", .cap, .lit "delete"], "delete_group"⟩,
  ⟨"GET", [.lit "schedules"], "list_schedules"⟩,
  ⟨"POST", [.lit "schedules", .lit "create"], "create_schedule"⟩,
  ⟨"DELETE", [.lit "schedules", .cap, .lit "delete"], "delete_schedule"⟩,
  ⟨"GET", [.lit "health"], "health_check"⟩,
  ⟨"GET", [.lit "version"], "get_version"⟩,
  ⟨"GET", [.lit "alerts"], "list_alerts"⟩,
  ⟨"GET", [.lit "client", .cap, .lit "quota", .lit "history"], "quota_history"⟩,
  ⟨"GET", [.lit "server", .lit "settings"], "get_server_settings"⟩,
  ⟨"POST", [.lit "server", .lit "settings"], "update_server_settings"⟩,
  ⟨"GET", [.lit "client", .cap, .lit "activity"], "client_activity"⟩]

/-- Starlette dispatch: the first registered route whose method and
template match wins. -/
def matchRoute (m : String) (path : List String) : Option String :=
  (routes.find? (fun r => r.method == m && matchSegs r.segs path)).map Route.handler

/-- Filesystem state seen by `get_server_logs`: whether
`/var/log/urbackup.log` is a regular file, and its lines in file order. -/
structure ServerLogFs where
  logIsFile : Bool
  logLines : List String
deriving DecidableEq, Repr

/-- `get_server_logs` (src/main.py:322-331): 404 when the log file is
missing, else the lines streamed in order as plain text. -/
def get_server_logs (fs : ServerLogFs) : Except HTTPError (List String) :=
  if fs.logIsFile then .ok fs.logLines
  else .error ⟨404, "Fichier log introuvable"⟩

/-- C3 (code bug): `GET /logs/server` is dispatched to `get_client_logs`
(the `/logs/{client_identifier}` route, registered at src/main.py:234,
with `client_identifier = "server"`), because that route precedes
`/logs/server` (src/main.py:322) in registration order and Starlette
takes the first match.  The server-log route exists in the table but is
unreachable, contradicting the claim that the request is never handled
as a client-logs lookup. -/
theorem c3_logs_server_shadowed :
    matchRoute "GET" ["logs", "server"] = some "get_client_logs" ∧
    "get_server_logs" ∈ routes.map Route.handler := by
  constructor
  · rfl
  · decide

/-- Filesystem state seen by the `/docs` handler: whether
`templates/swagger.html` exists next to the module, and its text. -/
structure DocsState where
  swaggerHtmlExists : Bool
  swaggerHtml : String
deriving DecidableEq, Repr

/-- An HTML response: status, body, and any extra headers set by the
handler (beyond the framework's content headers). -/
structure HtmlResponse where
  status : Nat
  body : String
  headers : List (String × String)
deriving DecidableEq, Repr

/-- The template substitution performed by the handler:
`html_content.replace("{{ openapi_url | tojson }}", f'"{openapi_url}"')`
with `app.openapi_url = "/openapi.json"`. -/
def renderSwagger (content : String) : String :=
  content.replace "\x7b\x7b openapi_url | tojson \x7d\x7d" "\"/openapi.json\""

/-- `custom_swagger_ui_html` (src/main.py:33-41).  The handler takes no
credential dependency at all, so the request's Basic credentials (modelled
as an optional user/password pair) are ignored: it renders the template
when present and answers 404 otherwise, setting no extra headers. -/
def custom_swagger_ui_html (st : DocsState)
    (_creds : Option (String × String)) : HtmlResponse :=
  if st.swaggerHtmlExists then ⟨200, renderSwagger st.swaggerHtml, []⟩
  else ⟨404, "<h1>swagger.html non trouvé</h1>", []⟩

/-- C4 counterexample: with the swagger template present, a request with
empty credentials — and one with wrong credentials — receives status 200
with no `WWW-Authenticate` header, not the 401 challenge the claim
requires for every request without correct credentials. -/
theorem c4_docs_not_gated_counterexample :
    (custom_swagger_ui_html ⟨true, "page"⟩ none).status = 200 ∧
    (custom_swagger_ui_html ⟨true, "page"⟩ (some ("admin", "wrong"))).status ≠ 401 ∧
    (custom_swagger_ui_html ⟨true, "page"⟩ none).headers = [] :=
  ⟨rfl, by decide, rfl⟩

/-- C4 amended: `GET /docs` performs no credential check.  Every request,
whatever its Basic credentials (correct, wrong or absent), receives the
same response: the rendered documentation page with status 200 when the
template file exists, and 404 when it does not; no `WWW-Authenticate`
challenge is ever issued. -/
theorem c4_docs_ungated (st : DocsState) (creds creds2 : Option (String × String)) :
    custom_swagger_ui_html st creds = custom_swagger_ui_html st creds2 ∧
    custom_swagger_ui_html st creds =
      (if st.swaggerHtmlExists then ⟨200, renderSwagger st.swaggerHtml, []⟩
       else ⟨404, "<h1>swagger.html non trouvé</h1>", []⟩) :=
  ⟨rfl, rfl⟩

/-- A JSON-ish value, enough to state what the handlers place in their
response bodies. -/
inductive PyVal where
  | str (s : String)
  | int (n : Int)
  | obj (fields : List (String × PyVal))

/-- The body returned by `/health`. -/
structure HealthBody where
  proxy : String
  urbackup : PyVal

/-- `health_check` (src/main.py:408-415).  The backend call
`server.get_status()` either returns a status value or raises; the raised
exception is modelled by its `str(e)` form.  Both arms `return` a dict,
so FastAPI emits status 200 either way. -/
def health_check (statusResult : Except String PyVal) : Nat × HealthBody :=
  match statusResult with
  | .ok status => (200, ⟨"ok", status⟩)
  | .error e => (200, ⟨"ok", .str ("Erreur: " ++ e)⟩)

/-- C6: the health endpoint answers HTTP 200 for every outcome of the
backend call; on success the body's `urbackup` field carries the backend
status, and on any backend exception the body still says `proxy: "ok"`
with `urbackup` an error string — no 5xx is propagated. -/
theorem c6_health_always_200 (statusResult : Except String PyVal) :
    health_check statusResult =
      (200, ⟨"ok",
        match statusResult with
        | .ok status => status
        | .error e => .str ("Erreur: " ++ e)⟩) := by
  cases statusResult <;> rfl

/-- A backup record of `server.get_client_backups(client_id)`.  The code
reads these fields with `.get`, so each is optional except the id. -/
structure Backup where
  id : Int
  backup_time : Option Int
  total_bytes : Option Int
  files : Option (List String)
  path : Option String
deriving DecidableEq, Repr

/-- The sort key of `get_latest_backup`: `lambda b: b.get("backup_time", 0)`. -/
def backupTimeKey (b : Backup) : Int :=
  b.backup_time.getD 0

/-- Python `max(backups, key=...)` on a nonempty list: iterate, replacing
the current best only when the new key is strictly greater — so on ties
the earliest element wins. -/
def pyMaxAux (key : Backup → Int) (best : Backup) : List Backup → Backup
  | [] => best
  | b :: rest => pyMaxAux key (if key best < key b then b else best) rest

/-- `get_latest_backup` (src/main.py:295-303).  This handler has no
`try/except`, so the resolver's 404 propagates untouched; an empty backup
list answers 404; otherwise the `max` by `backup_time` is returned. -/
def get_latest_backup (clients : List Client) (getBackups : Int → List Backup)
    (identifier : Ident) : Except HTTPError Backup :=
  match resolve_client clients identifier with
  | .error e => .error e
  | .ok c =>
    match getBackups c.id with
    | [] => .error ⟨404, "Aucune sauvegarde trouvée"⟩
    | b :: rest => .ok (pyMaxAux backupTimeKey b rest)

/-- Whether `x` has the maximal key over the list `l`. -/
def isMaxIn (key : Backup → Int) (l : List Backup) (x : Backup) : Bool :=
  l.all (fun y => key y ≤ key x)

theorem find?_congr_mem {α : Type} (p q : α → Bool) (l : List α)
    (h : ∀ x ∈ l, p x = q x) : l.find? p = l.find? q := by
  induction l with
  | nil => rfl
  | cons a l ih =>
    have ha : p a = q a := h a (List.mem_cons_self a l)
    cases hq : q a with
    | false =>
      rw [List.find?_cons_of_neg _ (by simp [ha, hq]), List.find?_cons_of_neg _ (by simp [hq])]
      exact ih fun x hx => h x (List.mem_cons_of_mem a hx)
    | true =>
      rw [List.find?_cons_of_pos _ (ha.trans hq), List.find?_cons_of_pos _ hq]

/-- The Python `max` loop returns exactly the first element of the list
that is maximal for the key: the `find?` of the maximality predicate. -/
theorem find?_max_cons (key : Backup → Int) (b : Backup) (l : List Backup) :
    (b :: l).find? (isMaxIn key (b :: l)) = some (pyMaxAux key b l) := by
  induction l generalizing b with
  | nil =>
    rw [List.find?_cons_of_pos _ (by simp [isMaxIn])]
    rfl
  | cons c l ih =>
    by_cases hbc : key b < key c
    · have h1 : isMaxIn key (b :: c :: l) b = false := by
        have hcb : ¬ key c ≤ key b := not_le.mpr hbc
        simp [isMaxIn, hcb]
      rw [List.find?_cons_of_neg _ (by simp [h1])]
      have h2 : ∀ x ∈ (c :: l),
          isMaxIn key (b :: c :: l) x = isMaxIn key (c :: l) x := by
        intro x _
        simp only [isMaxIn, List.all_cons]
        by_cases hcx : key c ≤ key x
        · have hbx : key b ≤ key x := le_of_lt (lt_of_lt_of_le hbc hcx)
          simp [hbx, hcx]
        · simp [hcx]
      rw [find?_congr_mem _ _ _ h2, ih c]
      simp [pyMaxAux, hbc]
    · have hcb : key c ≤ key b := not_lt.mp hbc
      have hhead : isMaxIn key (b :: c :: l) b = isMaxIn key (b :: l) b := by
        simp only [isMaxIn, List.all_cons]
        simp [hcb]
      have hgoalR : pyMaxAux key b (c :: l) = pyMaxAux key b l := by
        simp [pyMaxAux, hbc]
      rw [hgoalR]
      cases hPb : isMaxIn key (b :: l) b with
      | true =>
        rw [List.find?_cons_of_pos _ (hhead.trans hPb)]
        exact (List.find?_cons_of_pos _ hPb).symm.trans (ih b)
      | false =>
        rw [List.find?_cons_of_neg _ (by simp [hhead, hPb])]
        have hall : l.all (fun y => decide (key y ≤ key b)) = false := by
          simpa [isMaxIn] using hPb
        have hc : isMaxIn key (b :: c :: l) c = false := by
          by_cases hbc2 : key b ≤ key c
          · rw [List.all_eq_false] at hall
            obtain ⟨y, hy, hyb⟩ := hall
            have hyb' : ¬ key y ≤ key b := by simpa using hyb
            have hyc : ¬ key y ≤ key c := fun hle => hyb' (le_trans hle hcb)
            have : l.all (fun y => decide (key y ≤ key c)) = false :=
              List.all_eq_false.mpr ⟨y, hy, by simpa using hyc⟩
            simp [isMaxIn, this]
          · simp [isMaxIn, hbc2]
        rw [List.find?_cons_of_neg _ (by simp [hc])]
        have hx : ∀ x ∈ l, isMaxIn key (b :: c :: l) x = isMaxIn key (b :: l) x := by
          intro x _
          simp only [isMaxIn, List.all_cons]
          by_cases hbx : key b ≤ key x
          · have hcx : key c ≤ key x := le_trans hcb hbx
            simp [hbx, hcx]
          · simp [hbx]
        rw [find?_congr_mem _ _ _ hx,
          ← List.find?_cons_of_neg l
            (show ¬ isMaxIn key (b :: l) b = true by simp [hPb]),
          ih b]

/-- C5: for a resolved client, the latest-backup endpoint returns the
backup with the maximum `backup_time` (missing times default to 0), ties
broken in favor of the record the backend lists first — i.e. the `find?`
of the maximality predicate — and answers 404 exactly when the client's
backup list is empty. -/
theorem c5_latest_backup (clients : List Client) (getBackups : Int → List Backup)
    (identifier : Ident) (c : Client)
    (h : resolve_client clients identifier = .ok c) :
    get_latest_backup clients getBackups identifier =
      (match (getBackups c.id).find? (isMaxIn backupTimeKey (getBackups c.id)) with
       | some r => .ok r
       | none => .error ⟨404, "Aucune sauvegarde trouvée"⟩) ∧
    ((getBackups c.id).find? (isMaxIn backupTimeKey (getBackups c.id)) = none ↔
      getBackups c.id = []) := by
  cases hbs : getBackups c.id with
  | nil =>
    refine ⟨?_, by simp⟩
    simp [get_latest_backup, h, hbs]
  | cons b rest =>
    refine ⟨?_, by simp [find?_max_cons]⟩
    simp [get_latest_backup, h, hbs, find?_max_cons]

/-- Backups with times [100, 300, 200] for the witness. -/
def demoLatestBackups : List Backup :=
  [⟨1, some 100, none, none, none⟩, ⟨2, some 300, none, none, none⟩,
   ⟨3, some 200, none, none, none⟩]

theorem c5_latest_backup_witness :
    resolve_client [⟨1, "c"⟩] (.int 1) = .ok ⟨1, "c"⟩ ∧
    get_latest_backup [⟨1, "c"⟩] (fun _ => demoLatestBackups) (.int 1) =
      (match demoLatestBackups.find? (isMaxIn backupTimeKey demoLatestBackups) with
       | some r => .ok r
       | none => .error ⟨404, "Aucune sauvegarde trouvée"⟩) ∧
    get_latest_backup [⟨1, "c"⟩] (fun _ => demoLatestBackups) (.int 1) =
      .ok ⟨2, some 300, none, none, none⟩ :=
  ⟨by rfl,
   (c5_latest_backup [⟨1, "c"⟩] (fun _ => demoLatestBackups) (.int 1) ⟨1, "c"⟩ (by rfl)).1,
   by rfl⟩

/-- The generator-sum of `get_client_used_space`:
`sum(b.get("total_bytes", 0) for b in backups if b.get("total_bytes") is
not None)` — a left fold that adds `total_bytes` when present, skips
records where it is null or missing. -/
def sumUsedBytes (l : List Backup) : Int :=
  l.foldl
    (fun acc b =>
      match b.total_bytes with
      | some v => acc + v
      | none => acc) 0

/-- The body returned by the used-space endpoint. -/
structure UsedSpaceBody where
  client : String
  used_bytes : Int
deriving DecidableEq, Repr

/-- `get_client_used_space` (src/main.py:264-273): resolver inside the
blanket `try/except`, then the filtered sum over the client's backups. -/
def get_client_used_space (clients : List Client) (getBackups : Int → List Backup)
    (identifier : Ident) : Except HTTPError UsedSpaceBody :=
  match resolve_client clients identifier with
  | .error e => .error ⟨500, httpExceptionStr e⟩
  | .ok c => .ok ⟨c.name, sumUsedBytes (getBackups c.id)⟩

theorem sumUsedBytes_foldl_eq (l : List Backup) (a : Int) :
    l.foldl
      (fun acc b =>
        match b.total_bytes with
        | some v => acc + v
        | none => acc) a =
      a + (l.filterMap Backup.total_bytes).sum := by
  induction l generalizing a with
  | nil => simp
  | cons b l ih =>
    cases hb : b.total_bytes with
    | none => simp [List.foldl, hb, List.filterMap_cons, ih]
    | some v => simp [List.foldl, hb, List.filterMap_cons, ih, add_assoc]

/-- The fold equals the sum of the non-null `total_bytes` values. -/
theorem sumUsedBytes_eq (l : List Backup) :
    sumUsedBytes l = (l.filterMap Backup.total_bytes).sum := by
  simpa [sumUsedBytes] using sumUsedBytes_foldl_eq l 0

/-- C7: for a resolved client, the used-space endpoint returns the sum of
`total_bytes` over exactly the backups whose `total_bytes` is non-null
(null or absent entries are skipped, not zero-with-error). -/
theorem c7_used_space (clients : List Client) (getBackups : Int → List Backup)
    (identifier : Ident) (c : Client)
    (h : resolve_client clients identifier = .ok c) :
    get_client_used_space clients getBackups identifier =
      .ok ⟨c.name, ((getBackups c.id).filterMap Backup.total_bytes).sum⟩ := by
  simp [get_client_used_space, h, sumUsedBytes_eq]

/-- Backups with `total_bytes` 100, null, 50 for the witness. -/
def demoUsedBackups : List Backup :=
  [⟨1, none, some 100, none, none⟩, ⟨2, none, none, none, none⟩,
   ⟨3, none, some 50, none, none⟩]

theorem c7_used_space_witness :
    resolve_client [⟨1, "c"⟩] (.int 1) = .ok ⟨1, "c"⟩ ∧
    get_client_used_space [⟨1, "c"⟩] (fun _ => demoUsedBackups) (.int 1) =
      .ok ⟨"c", 150⟩ :=
  ⟨by rfl,
   (c7_used_space [⟨1, "c"⟩] (fun _ => demoUsedBackups) (.int 1) ⟨1, "c"⟩
      (by rfl)).trans (by rfl)⟩

/-- The filesystem as `get_backup_files` sees it: `os.path.exists`, and
the relative paths of the regular files `os.walk` enumerates under an
existing root (in traversal order, deterministic for a fixed tree). -/
structure FileSys where
  pathExists : String → Bool
  walkFiles : String → List String

/-- The second and third arms of `get_backup_files`: scan the backup's
`path` when present and existing, else the empty list. -/
def backupPathScan (fs : FileSys) (b : Backup) : List String :=
  match b.path with
  | some p => if fs.pathExists p then fs.walkFiles p else []
  | none => []

/-- `get_backup_files` (src/main.py:69-78): a truthy (non-empty) `files`
entry is returned verbatim; otherwise an existing `path` is walked;
otherwise the empty list.  The Lean function is total: the embedding of
"this function never raises". -/
def get_backup_files (fs : FileSys) (b : Backup) : List String :=
  match b.files with
  | some l => if l.isEmpty then backupPathScan fs b else l
  | none => backupPathScan fs b

/-- C8: `get_backup_files` never raises (it is a total function); a
non-empty file listing is returned verbatim; failing that, an existing
filesystem path is recursively enumerated; failing that, the result is
empty. -/
theorem c8_get_backup_files_spec (fs : FileSys) (b : Backup) :
    (∀ l, b.files = some l → l ≠ [] → get_backup_files fs b = l) ∧
    ((b.files = none ∨ b.files = some []) →
      ∀ p, b.path = some p → fs.pathExists p = true →
        get_backup_files fs b = fs.walkFiles p) ∧
    ((b.files = none ∨ b.files = some []) →
      (b.path = none ∨ ∃ p, b.path = some p ∧ fs.pathExists p = false) →
        get_backup_files fs b = []) := by
  refine ⟨?_, ?_, ?_⟩
  · intro l hl hne
    cases l with
    | nil => exact absurd rfl hne
    | cons x xs => simp [get_backup_files, hl]
  · intro hf p hp hex
    rcases hf with h | h <;> simp [get_backup_files, h, backupPathScan, hp, hex]
  · intro hf hp
    rcases hp with h2 | ⟨p, hp2, hpe⟩
    · rcases hf with h | h <;> simp [get_backup_files, h, backupPathScan, h2]
    · rcases hf with h | h <;> simp [get_backup_files, h, backupPathScan, hp2, hpe]

/-- A concrete filesystem where only `/b` exists. -/
def demoFs : FileSys :=
  ⟨fun p => p == "/b", fun _ => ["sub/x.txt", "y.txt"]⟩

theorem c8_get_backup_files_spec_witness :
    get_backup_files demoFs ⟨1, none, none, some ["a", "b"], none⟩ = ["a", "b"] ∧
    get_backup_files demoFs ⟨2, none, none, none, some "/b"⟩ =
      ["sub/x.txt", "y.txt"] ∧
    get_backup_files demoFs ⟨3, none, none, some [], some "/missing"⟩ = [] :=
  ⟨(c8_get_backup_files_spec demoFs ⟨1, none, none, some ["a", "b"], none⟩).1
      ["a", "b"] rfl (by decide),
   (c8_get_backup_files_spec demoFs ⟨2, none, none, none, some "/b"⟩).2.1
      (Or.inl rfl) "/b" rfl (by decide),
   (c8_get_backup_files_spec demoFs ⟨3, none, none, some [], some "/missing"⟩).2.2
      (Or.inr rfl) (Or.inr ⟨"/missing", rfl, by decide⟩)⟩

/-- Python `str.lower()` per character (the claims involve only ASCII). -/
def pyLower (s : String) : String :=
  ⟨s.data.map Char.toLower⟩

/-- Python's substring operator `needle in hay` on character lists: some
suffix of `hay` starts with `needle` (the empty needle always matches). -/
def containsSub (pat : List Char) : List Char → Bool
  | [] => pat.isEmpty
  | c :: rest => List.isPrefixOf pat (c :: rest) || containsSub pat rest

/-- Python `needle in hay` on strings. -/
def pyInStr (needle hay : String) : Bool :=
  containsSub needle.data hay.data

/-- Python `line.strip()`: removes whitespace — spaces and tabs as well
as the line terminators — from both ends. -/
def pyStrip (s : String) : String :=
  ⟨stripChars s.data⟩

/-- The `for line in f` loop of `search_logs_client`: keep `line.strip()`
for every line with `query.lower() in line.lower()`. -/
def searchLines (query : String) : List String → List String
  | [] => []
  | line :: rest =>
    if pyInStr (pyLower query) (pyLower line) then
      pyStrip line :: searchLines query rest
    else searchLines query rest

/-- The client log file as the handler sees it: whether
`/var/log/urbackup_{identifier}.log` is a regular file, and its lines in
file order (each still carrying its terminator, as Python iteration
yields them). -/
structure ClientLogFs where
  isFile : Bool
  lines : List String
deriving DecidableEq, Repr

/-- `search_logs_client` (src/main.py:333-343): 404 when the client's log
file is missing, else the matching lines. -/
def search_logs_client (fs : ClientLogFs) (query : String) :
    Except HTTPError (List String) :=
  if fs.isFile then .ok (searchLines query fs.lines)
  else .error ⟨404, "Fichier log du client introuvable"⟩

/-- What the claim says the per-line trimming is: only the line
terminators are removed (a claim-side definition, for comparison). -/
def stripNewlinesOnly (s : String) : String :=
  ⟨(s.data.reverse.dropWhile (fun c => c = '\n' || c = '\r')).reverse⟩

/-- The claim's version of the search result: matching lines trimmed only
of their line terminators (a claim-side definition, for comparison). -/
def searchLinesClaimed (query : String) (lines : List String) : List String :=
  (lines.filter (fun l => pyInStr (pyLower query) (pyLower l))).map stripNewlinesOnly

/-- C9 counterexample: the code strips ALL leading/trailing whitespace
(`line.strip()`), not only the line terminators.  On the log line
`"  Backup FAILED for job 7  \n"` with query `"failed"` the code returns
the line without its surrounding spaces, while the claim demands the
spaces be kept. -/
theorem c9_strip_counterexample :
    searchLines "failed" ["  Backup FAILED for job 7  \n"] =
      ["Backup FAILED for job 7"] ∧
    searchLinesClaimed "failed" ["  Backup FAILED for job 7  \n"] =
      ["  Backup FAILED for job 7  "] ∧
    searchLines "failed" ["  Backup FAILED for job 7  \n"] ≠
      searchLinesClaimed "failed" ["  Backup FAILED for job 7  \n"] := by
  refine ⟨by decide, by decide, by decide⟩

theorem searchLines_eq_filter_map (query : String) (lines : List String) :
    searchLines query lines =
      (lines.filter (fun l => pyInStr (pyLower query) (pyLower l))).map pyStrip := by
  induction lines with
  | nil => rfl
  | cons l rest ih =>
    cases h : pyInStr (pyLower query) (pyLower l) <;>
      simp [searchLines, List.filter_cons, h, ih]

/-- C9 amended: for every client log file and query, the log-search
endpoint returns exactly those lines that contain the query as a
case-insensitive substring, each returned line trimmed of its leading and
trailing whitespace — `str.strip()`, which removes the line terminators
but also surrounding spaces and tabs; a missing file answers 404. -/
theorem c9_search_logs_amended (fs : ClientLogFs) (query : String) :
    search_logs_client fs query =
      (if fs.isFile then
        .ok ((fs.lines.filter
          (fun l => pyInStr (pyLower query) (pyLower l))).map pyStrip)
       else .error ⟨404, "Fichier log du client introuvable"⟩) := by
  cases hf : fs.isFile <;>
    simp [search_logs_client, hf, searchLines_eq_filter_map]

/-- The `quota` entry of a client's settings mapping, as
`settings.get("quota", {})` can see it: the key may be absent (the code
then uses `{}`), may hold `None`, or may hold a record whose `value` is
absent (`None`) or a string. -/
inductive QuotaEntry where
  | missing
  | null
  | record (value : Option String)
deriving DecidableEq, Repr

/-- Python `int(x)` on the result of `quota.get("value")`: `int(None)`
raises `TypeError`, a string parses or raises `ValueError` (messages
abbreviated from CPython's). -/
def pyIntOfValue : Option String → Except String Int
  | none =>
    .error "int() argument must be a string, a bytes-like object or a real number, not NoneType"
  | some s =>
    match pyIntOfString s with
    | some n => .ok n
    | none => .error ("invalid literal for int() with base 10: " ++ s)

/-- The body returned by `GET /client/{client_identifier}/quota`. -/
structure QuotaBody where
  client : String
  quota_bytes : Option Int
deriving DecidableEq, Repr

/-- `get_client_quota` (src/main.py:243-252).  `quota =
settings.get("quota", {})`; the response computes
`int(quota.get("value")) if quota is not None else None`, inside the
blanket `try/except` that turns any exception into a 500. -/
def get_client_quota (clients : List Client) (getQuotaEntry : Int → QuotaEntry)
    (identifier : Ident) : Except HTTPError QuotaBody :=
  match resolve_client clients identifier with
  | .error e => .error ⟨500, httpExceptionStr e⟩
  | .ok c =>
    match getQuotaEntry c.id with
    | .null => .ok ⟨c.name, none⟩
    | .missing =>
      match pyIntOfValue none with
      | .ok n => .ok ⟨c.name, some n⟩
      | .error msg => .error ⟨500, msg⟩
    | .record v =>
      match pyIntOfValue v with
      | .ok n => .ok ⟨c.name, some n⟩
      | .error msg => .error ⟨500, msg⟩

/-- C10: for a resolved client whose settings have no `quota` entry, or a
`quota` record without a `value`, the endpoint answers HTTP 500 — the
`int(None)` conversion raises `TypeError` and the blanket `except`
translates it as a backend failure — never a 200 body with
`quota_bytes` null. -/
theorem c10_missing_quota_500 (clients : List Client)
    (getQuotaEntry : Int → QuotaEntry) (identifier : Ident) (c : Client)
    (h : resolve_client clients identifier = .ok c)
    (hq : getQuotaEntry c.id = .missing ∨ getQuotaEntry c.id = .record none) :
    get_client_quota clients getQuotaEntry identifier =
      .error ⟨500,
        "int() argument must be a string, a bytes-like object or a real number, not NoneType"⟩ := by
  rcases hq with hq | hq <;> simp [get_client_quota, h, hq, pyIntOfValue]

theorem c10_missing_quota_500_witness :
    resolve_client [⟨1, "c"⟩] (.int 1) = .ok ⟨1, "c"⟩ ∧
    get_client_quota [⟨1, "c"⟩] (fun _ => .missing) (.int 1) =
      .error ⟨500,
        "int() argument must be a string, a bytes-like object or a real number, not NoneType"⟩ :=
  ⟨by rfl,
   c10_missing_quota_500 [⟨1, "c"⟩] (fun _ => .missing) (.int 1) ⟨1, "c"⟩
     (by rfl) (Or.inl rfl)⟩

end Symplibackup
